import Mathlib

/-!
Verification of the tool-calling agent server.

This file gives a shallow embedding of the server's core code paths:

* the tool executor module (`getAvailableTools`, `executeTool`,
  `processToolCalls`, `chatWithTools`),
* the Ollama client's streaming fragment extraction (`chatStream`) and the
  SSE streaming route handler's chunk consumption,
* the `POST /api/agents/:id/chat` route handler (agent lookup, message
  validation, conversation ownership check, store writes, model-call
  branching).

External effects (JSON.parse, the two function executors' network calls,
the model runtime endpoint) are modelled as oracle functions collected in
an `Env` record; everything else is translated directly from the source.
-/

/- A JavaScript/JSON value, as produced by JSON.parse and consumed by
JSON.stringify.  Arrays and objects use bespoke list types so that the
serializer can be defined by mutual structural recursion. -/
mutual

inductive Json where
  | jnull
  | jbool (b : Bool)
  | jnum (n : Int)
  | jstr (s : String)
  | jarr (elems : JsonArr)
  | jobj (fields : JsonObj)

inductive JsonArr where
  | nil
  | cons (hd : Json) (tl : JsonArr)

inductive JsonObj where
  | nil
  | cons (key : String) (val : Json) (tl : JsonObj)

end

/-- Is the first character list a leading segment of the second?
(Structural replacement for the library's prefix test, so that concrete
instances evaluate inside the kernel.) -/
def isLeadingOf : List Char → List Char → Bool
  | [], _ => true
  | _ :: _, [] => false
  | a :: as, b :: bs => decide (a = b) && isLeadingOf as bs

/-- JS `String.prototype.startsWith`, structurally over the character
lists. -/
def jsStartsWith (s pat : String) : Bool :=
  isLeadingOf pat.data s.data

/-- JS `String.prototype.trim`, structurally over the character list
(drops leading and trailing whitespace). -/
def jsTrim (s : String) : String :=
  ⟨((s.data.dropWhile Char.isWhitespace).reverse.dropWhile
      Char.isWhitespace).reverse⟩

/-- JS `String.prototype.substring(0, n)`, structurally over the
character list. -/
def jsTake (s : String) (n : Nat) : String :=
  ⟨s.data.take n⟩

/-- Does `pat` occur as a contiguous run in the character list? -/
def hasSub (pat : List Char) : List Char → Bool
  | [] => pat.isEmpty
  | c :: rest => isLeadingOf pat (c :: rest) || hasSub pat rest

/-- Escaping of a single character inside a JSON string literal, as
`JSON.stringify` does for the characters that occur in this development. -/
def jsonEscapeChar (c : Char) : String :=
  if c = Char.ofNat 34 then "\\\""
  else if c = Char.ofNat 92 then "\\\\"
  else if c = Char.ofNat 10 then "\\n"
  else if c = Char.ofNat 13 then "\\r"
  else if c = Char.ofNat 9 then "\\t"
  else String.singleton c

/-- `JSON.stringify` of a string value. -/
def jsonQuote (s : String) : String :=
  "\"" ++ String.join (s.toList.map jsonEscapeChar) ++ "\""

/- JSON.stringify on the JSON value model. -/
mutual

def Json.render : Json → String
  | .jnull => "null"
  | .jbool b => if b then "true" else "false"
  | .jnum n => toString n
  | .jstr s => jsonQuote s
  | .jarr xs => "[" ++ JsonArr.renderElems xs ++ "]"
  | .jobj fs => "\x7b" ++ JsonObj.renderFields fs ++ "\x7d"

def JsonArr.renderElems : JsonArr → String
  | .nil => ""
  | .cons x .nil => Json.render x
  | .cons x (.cons y tl) => Json.render x ++ "," ++ JsonArr.renderElems (.cons y tl)

def JsonObj.renderFields : JsonObj → String
  | .nil => ""
  | .cons k v .nil => jsonQuote k ++ ":" ++ Json.render v
  | .cons k v (.cons k2 v2 tl) =>
      jsonQuote k ++ ":" ++ Json.render v ++ "," ++ JsonObj.renderFields (.cons k2 v2 tl)

end

/-- Object member access `j.k`, `undefined` (here `none`) on non-objects
and missing keys. -/
def JsonObj.lookup : JsonObj → String → Option Json
  | .nil, _ => none
  | .cons k v tl, key => if k = key then some v else JsonObj.lookup tl key

def Json.member : Json → String → Option Json
  | .jobj fs, key => fs.lookup key
  | _, _ => none

/-- JavaScript truthiness of a JSON value (`if (x)`). -/
def Json.truthy : Json → Bool
  | .jnull => false
  | .jbool b => b
  | .jnum n => n ≠ 0
  | .jstr s => s ≠ ""
  | .jarr _ => true
  | .jobj _ => true

/-- The argument payload of a tool call: the model may deliver arguments
already structured or as a serialized-JSON string
(`toolCall.function.arguments`). -/
inductive Args where
  | strArg (s : String)
  | jsonArg (j : Json)

/-- A model-issued tool call: `{ id, function: { name, arguments } }`. -/
structure ToolCall where
  id : String
  fname : String
  args : Args

/-- A tool-result object produced by `processToolCalls`:
`{ tool_call_id, role: 'tool', content }`. -/
structure ToolResult where
  tool_call_id : String
  role : String
  content : String
deriving DecidableEq

/-- Outcome of an awaited executor call (`github.executeFunction` /
`linear.executeFunction`): either a returned JS value or a raised
exception carrying a message. -/
inductive ExecOutcome where
  | ok (v : Json)
  | threw (msg : String)

/-- A chat message as held in the loop's working sequence.  JS objects
without a field are modelled with `none` / `[]`. -/
structure Message where
  role : String
  content : String
  tool_calls : List ToolCall := []
  tool_call_id : Option String := none

/-- One response of the model runtime (`ollamaClient.post('/api/chat')`):
either a rejected request (connection error, timeout, non-2xx, surfaced
as a thrown error) or a parsed response body. -/
inductive ModelResponse where
  | failure (msg : String)
  | success (content : String) (tool_calls : List ToolCall)
      (total_duration : Nat) (eval_count : Nat)

/-- The oracles for all external effects: `JSON.parse`, the two function
executors, the model runtime, and the store's fresh-id supply. -/
structure Env where
  parseJson : String → Option Json
  githubExec : String → Json → ExecOutcome
  linearExec : String → Json → ExecOutcome
  respond : List Message → ModelResponse
  freshConvId : String

/-- A model-facing tool descriptor; only the function name matters to the
control flow verified here. -/
structure ToolDef where
  name : String
deriving DecidableEq

/-- The static catalog `github-client.js` exports as `tools`. -/
def githubTools : List ToolDef :=
  [⟨"github_list_repos"⟩, ⟨"github_search_repos"⟩, ⟨"github_get_file"⟩,
   ⟨"github_list_files"⟩, ⟨"github_search_code"⟩, ⟨"github_list_issues"⟩,
   ⟨"github_create_issue"⟩, ⟨"github_list_pulls"⟩, ⟨"github_get_repo"⟩,
   ⟨"github_list_branches"⟩, ⟨"github_create_or_update_file"⟩]

/-- The static catalog `linear-client.js` exports as `tools`. -/
def linearTools : List ToolDef :=
  [⟨"linear_list_teams"⟩, ⟨"linear_list_projects"⟩, ⟨"linear_list_issues"⟩,
   ⟨"linear_search_issues"⟩, ⟨"linear_create_issue"⟩, ⟨"linear_update_issue"⟩,
   ⟨"linear_list_states"⟩]

/-- `getAvailableTools(githubToken, linearApiKey)` from the tool executor:
GitHub tools are added when the token is truthy, Linear tools when the API
key is truthy.  Absent credentials are the empty string (falsy). -/
def getAvailableTools (githubToken linearApiKey : String) : List ToolDef :=
  (if githubToken ≠ "" then githubTools else []) ++
  (if linearApiKey ≠ "" then linearTools else [])

/-- Builds the serialized error object `JSON.stringify({ error, tool })`
(or `{ error }` when no tool name is attached). -/
def errContent (msg : String) (tool : Option String) : String :=
  match tool with
  | none => Json.render (.jobj (.cons "error" (.jstr msg) .nil))
  | some f =>
      Json.render (.jobj (.cons "error" (.jstr msg) (.cons "tool" (.jstr f) .nil)))

/-- The routing-and-execution core of `executeTool`, after the argument
payload has been normalized to a structured value: route on the function
name, check the credential, await the executor, stringify the
result; every raised error is caught and serialized with the tool name. -/
def executeRouted (env : Env) (functionName : String) (args : Json)
    (githubToken linearApiKey : String) : String :=
  if jsStartsWith functionName "github_" then
    if githubToken = "" then
      errContent "GitHub token not configured" (some functionName)
    else
      match env.githubExec functionName args with
      | .ok (.jstr s) => s
      | .ok v => Json.render v
      | .threw m => errContent m (some functionName)
  else if jsStartsWith functionName "linear_" then
    if linearApiKey = "" then
      errContent "Linear API key not configured" (some functionName)
    else
      match env.linearExec functionName args with
      | .ok (.jstr s) => s
      | .ok v => Json.render v
      | .threw m => errContent m (some functionName)
  else
    errContent ("Unknown tool: " ++ functionName) (some functionName)

/-- `executeTool(toolCall, githubToken, linearApiKey)`: parse string
argument payloads (parse failure is a per-call error), then route and
execute.  Total: every failure mode ends in a serialized error string. -/
def executeTool (env : Env) (toolCall : ToolCall)
    (githubToken linearApiKey : String) : String :=
  match toolCall.args with
  | .strArg s =>
      match env.parseJson s with
      | none => errContent "Invalid JSON arguments" none
      | some a => executeRouted env toolCall.fname a githubToken linearApiKey
  | .jsonArg a => executeRouted env toolCall.fname a githubToken linearApiKey

/-- The per-call result object built inside `processToolCalls`. -/
def mkToolResult (env : Env) (githubToken linearApiKey : String)
    (toolCall : ToolCall) : ToolResult :=
  { tool_call_id := toolCall.id
    role := "tool"
    content := executeTool env toolCall githubToken linearApiKey }

/-- `processToolCalls(toolCalls, githubToken, linearApiKey)`:
`Promise.all` over the batch; the results array is positioned by
call-submission order. -/
def processToolCalls (env : Env) (toolCalls : List ToolCall)
    (githubToken linearApiKey : String) : List ToolResult :=
  toolCalls.map (mkToolResult env githubToken linearApiKey)

/-- The value `chatWithTools` resolves with.  The success return carries
`total_duration` / `eval_count` from the response; the fallback return
carries neither and sets `maxIterationsReached` (absent JS fields are
`none` / `false`). -/
structure ChatOutcome where
  message : String
  toolResults : List ToolResult
  iterations : Nat
  totalDuration : Option Nat
  evalCount : Option Nat
  maxIterationsReached : Bool

/-- A run of the orchestration loop: its outcome (`.error` models the
rethrown model-runtime failure), the list of message sequences sent to the
model runtime (one entry per `ollamaClient.post` call, in order), and the
working message sequence at exit. -/
structure LoopResult where
  outcome : Except String ChatOutcome
  trace : List (List Message)
  finalMessages : List Message

/-- `lastMessage?.content || 'Max tool iterations reached'`: the fallback
text when the iteration ceiling is exhausted (empty content is falsy). -/
def fallbackMessage (msgs : List Message) : String :=
  match msgs.getLast? with
  | none => "Max tool iterations reached"
  | some m => if m.content = "" then "Max tool iterations reached" else m.content

/-- The synthetic tool-role message pushed onto the working sequence for
one tool result: the source builds `{ role: 'tool', content: result.content }`
(no call identifier). -/
def toolResultMessage (tr : ToolResult) : Message :=
  { role := "tool", content := tr.content }

/-- The assistant message carrying the tool calls, pushed verbatim. -/
def assistantMessage (content : String) (tcs : List ToolCall) : Message :=
  { role := "assistant", content := content, tool_calls := tcs }

/-- The `while (iterations < maxIterations)` loop of `chatWithTools`,
with the remaining budget as structural fuel (`fuel = maxIterations -
iterations`).  `cur` is the working sequence, `acc` is `allToolResults`,
`iters` the iterations performed so far. -/
def chatLoop (env : Env) (githubToken linearApiKey : String) :
    Nat → List Message → List ToolResult → Nat → LoopResult
  | 0, cur, acc, iters =>
      { outcome := .ok
          { message := fallbackMessage cur
            toolResults := acc
            iterations := iters
            totalDuration := none
            evalCount := none
            maxIterationsReached := true }
        trace := []
        finalMessages := cur }
  | fuel + 1, cur, acc, iters =>
      match env.respond cur with
      | .failure e =>
          -- the catch block rethrows: the failure propagates immediately
          { outcome := .error e, trace := [cur], finalMessages := cur }
      | .success content tcs dur ec =>
          if tcs.isEmpty then
            { outcome := .ok
                { message := content
                  toolResults := acc
                  iterations := iters + 1
                  totalDuration := some dur
                  evalCount := some ec
                  maxIterationsReached := false }
              trace := [cur]
              finalMessages := cur }
          else
            let results := processToolCalls env tcs githubToken linearApiKey
            let cur2 := (cur ++ [assistantMessage content tcs]) ++
              results.map toolResultMessage
            let r := chatLoop env githubToken linearApiKey fuel cur2
              (acc ++ results) (iters + 1)
            { outcome := r.outcome, trace := cur :: r.trace
              finalMessages := r.finalMessages }

/-- `chatWithTools(ollamaClient, model, messages, tools, options,
githubToken, linearApiKey, maxIterations)`.  The axios client and the
generation options live in `Env`; the working copy `[...messages]` is the
input list (aliasing is treated by the heap model below). -/
def chatWithTools (env : Env) (messages : List Message) (_tools : List ToolDef)
    (githubToken linearApiKey : String) (maxIterations : Nat) : LoopResult :=
  chatLoop env githubToken linearApiKey maxIterations messages [] 0

/-- The resolved outcome, with a dummy value on the thrown path. -/
def LoopResult.outcomeD (r : LoopResult) : ChatOutcome :=
  match r.outcome with
  | .ok o => o
  | .error _ =>
      { message := "", toolResults := [], iterations := 0,
        totalDuration := none, evalCount := none, maxIterationsReached := false }

/-- Did the call resolve (rather than reject)? -/
def isOkE (x : Except String ChatOutcome) : Bool :=
  match x with
  | .ok _ => true
  | .error _ => false

/-! ### Mutable-array model for the caller's `messages` argument

JS arrays are heap references and `push` mutates in place.  `Heap` holds
the message arrays alive during one `chatWithTools` call; the caller's
array is a reference into it, and `let currentMessages = [...messages]`
is an allocation of a fresh array with the same contents. -/

structure Heap where
  arrays : List (List Message)

def Heap.get (h : Heap) (r : Nat) : List Message :=
  h.arrays.getD r []

def Heap.set (h : Heap) (r : Nat) (v : List Message) : Heap :=
  ⟨h.arrays.set r v⟩

/-- `array.push(m)` on the array behind reference `r`. -/
def Heap.push (h : Heap) (r : Nat) (m : Message) : Heap :=
  h.set r (h.get r ++ [m])

/-- Allocation of a fresh array: the new reference is the next index. -/
def Heap.alloc (h : Heap) (v : List Message) : Heap × Nat :=
  (⟨h.arrays ++ [v]⟩, h.arrays.length)

/-- The loop of `chatWithTools` at the level of heap mutations: all
`currentMessages.push(...)` calls target the reference `cur`. -/
def chatLoopH (env : Env) (githubToken linearApiKey : String) :
    Nat → Heap → Nat → Heap
  | 0, h, _ => h
  | fuel + 1, h, cur =>
      match env.respond (h.get cur) with
      | .failure _ => h
      | .success content tcs _ _ =>
          if tcs.isEmpty then h
          else
            let results := processToolCalls env tcs githubToken linearApiKey
            let h1 := h.push cur (assistantMessage content tcs)
            let h2 := results.foldl (fun hh tr => hh.push cur (toolResultMessage tr)) h1
            chatLoopH env githubToken linearApiKey fuel h2 cur

/-- `chatWithTools` on the heap model: copy the caller's array
(`[...messages]`), then run the loop against the copy only. -/
def chatWithToolsH (env : Env) (githubToken linearApiKey : String)
    (maxIterations : Nat) (h : Heap) (messagesRef : Nat) : Heap :=
  let p := h.alloc (h.get messagesRef)
  chatLoopH env githubToken linearApiKey maxIterations p.1 p.2

/-! ### The streaming path

`chatStream` (ollama-client, cloud variant) reads the response body as
NDJSON: blank lines are dropped, each remaining line is `JSON.parse`d
(lines that fail to parse are ignored), and for every parsed object whose
`message.content` is truthy that content value is enqueued on the
returned stream.  The SSE route handler then consumes chunks with
`chunk.message?.content || ''`, accumulates them into `fullMessage`, and
persists `fullMessage`. -/

/-- The sequence of values `chatStream` enqueues for a given NDJSON line
sequence, under the `JSON.parse` oracle. -/
def chatStreamChunks (parse : String → Option Json) (lines : List String) :
    List Json :=
  (lines.filter (fun l => jsTrim l ≠ "")).filterMap (fun l =>
    match parse l with
    | none => none
    | some j =>
        match (j.member "message").bind (fun m => m.member "content") with
        | none => none
        | some c => if c.truthy then some c else none)

/-- The text fragments of the model's streamed answer: the string contents
enqueued by `chatStream` (in the protocol these are always strings). -/
def chatStreamFragments (parse : String → Option Json) (lines : List String) :
    List String :=
  (chatStreamChunks parse lines).filterMap (fun c =>
    match c with
    | .jstr s => some s
    | _ => none)

/-- The SSE handler's per-chunk extraction `chunk.message?.content || ''`
(member access on a non-object yields `undefined`, which `|| ''` turns
into the empty string). -/
def handlerChunkText (chunk : Json) : String :=
  match (chunk.member "message").bind (fun m => m.member "content") with
  | some (.jstr s) => s
  | _ => ""

/-- JS `+=` accumulation of text fragments into one string. -/
def concatAll : List String → String
  | [] => ""
  | s :: rest => s ++ concatAll rest

/-- The streaming handler's consumption of the delivered chunks: the SSE
`chunk` texts written to the client in order, and the `fullMessage`
accumulated by `+=` and persisted to the store afterwards. -/
def streamHandlerRun (chunks : List Json) : List String × String :=
  let texts := chunks.map handlerChunkText
  (texts, concatAll texts)

/-! ### The `POST /api/agents/:id/chat` route handler -/

/-- An agent registry entry; `allowedTools` is `lettaConfig.allowedTools`
(the agent's permitted-tool list). -/
structure Agent where
  id : String
  systemInstructions : String
  allowedTools : List String

structure Conversation where
  id : String
  agent_id : String
  title : String

structure StoredMessage where
  conversation_id : String
  role : String
  content : String

/-- The conversation store: conversation rows plus the append-only message
log in creation order. -/
structure Store where
  conversations : List Conversation
  messages : List StoredMessage

def Store.getConversation (st : Store) (cid : String) : Option Conversation :=
  st.conversations.find? (fun c => c.id = cid)

def Store.createConversation (st : Store) (newId agentId title : String) :
    Store × Conversation :=
  let c : Conversation := { id := newId, agent_id := agentId, title := title }
  ({ st with conversations := st.conversations ++ [c] }, c)

def Store.addMessage (st : Store) (cid role content : String) : Store :=
  { st with messages := st.messages ++
      [{ conversation_id := cid, role := role, content := content }] }

def Store.getMessages (st : Store) (cid : String) (limit : Nat) :
    List StoredMessage :=
  (st.messages.filter (fun m => m.conversation_id = cid)).take limit

/-- The request body of a chat request.  `message` is an arbitrary JS
value; for the other fields the empty string models an absent/falsy
value, matching the handler's truthiness tests. -/
structure ChatBody where
  message : Json
  conversationId : String
  githubToken : String
  linearApiKey : String

/-- Negation of the handler's guard
`!message || typeof message !== 'string' || message.trim().length === 0`:
valid exactly when the message is a string whose trim is non-empty. -/
def validMessage (m : Json) : Bool :=
  match m with
  | .jstr s => jsTrim s ≠ ""
  | _ => false

/-- JS `a || b` on strings ("" is the only falsy string). -/
def orElseStr (a b : String) : String :=
  if a ≠ "" then a else b

/-- `err.message.includes('connection')`. -/
def containsConnection (s : String) : Bool :=
  hasSub "connection".data s.data

inductive EndpointKind where
  | notFound
  | validationError
  | conflictError
  | success
  | serverError
deriving DecidableEq

/-- Observable outcome of one request to the chat endpoint: HTTP status,
which error/success branch answered, the store afterwards, how many model
runtime calls were made, and whether the `chatWithTools` branch ran
(instrumentation recording the `availableTools.length > 0` decision). -/
structure EndpointResult where
  status : Nat
  kind : EndpointKind
  store : Store
  modelCalls : Nat
  usedToolLoop : Bool
  responseText : Option String

/-- The branch between the tool loop and the direct call: when the
catalog derived from the credentials is non-empty, run `chatWithTools`
(ceiling 10); otherwise call `ollama.chat` once.  `st1` already holds the
user turn. -/
def modelPhase (env : Env) (st1 : Store) (convId : String)
    (ollamaMessages : List Message) (gh ln : String) : EndpointResult :=
  let availableTools := getAvailableTools gh ln
  if availableTools.length > 0 then
    let r := chatWithTools env ollamaMessages availableTools gh ln 10
    match r.outcome with
    | .ok out =>
        { status := 200, kind := .success
          store := st1.addMessage convId "assistant" out.message
          modelCalls := r.trace.length, usedToolLoop := true
          responseText := some out.message }
    | .error e =>
        { status := if containsConnection e then 503 else 500
          kind := .serverError, store := st1
          modelCalls := r.trace.length, usedToolLoop := true
          responseText := none }
  else
    match env.respond ollamaMessages with
    | .success content _ _ _ =>
        { status := 200, kind := .success
          store := st1.addMessage convId "assistant" content
          modelCalls := 1, usedToolLoop := false
          responseText := some content }
    | .failure e =>
        { status := if containsConnection e then 503 else 500
          kind := .serverError, store := st1
          modelCalls := 1, usedToolLoop := false
          responseText := none }

/-- The model phase of the chat handler, entered once a conversation id is
settled: save the user turn, load the history (limit 50), build the
Ollama message array (system prompt then history), then branch. -/
def chatEndpointRun (env : Env) (agent : Agent) (st : Store)
    (convId msgText gh ln : String) : EndpointResult :=
  let st1 := st.addMessage convId "user" (jsTrim msgText)
  let history := st1.getMessages convId 50
  let ollamaMessages : List Message :=
    { role := "system", content := agent.systemInstructions } ::
      history.map (fun m => { role := m.role, content := m.content })
  modelPhase env st1 convId ollamaMessages gh ln

/-- The `POST /api/agents/:id/chat` handler: agent lookup, message
validation, conversation lookup/creation with the ownership check, then
the model phase.  `envGh`/`envLn` are `process.env.GITHUB_TOKEN` /
`process.env.LINEAR_API_KEY` (empty string when unset). -/
def chatEndpoint (env : Env) (agents : List Agent) (st : Store)
    (agentId : String) (body : ChatBody) (envGh envLn : String) :
    EndpointResult :=
  match agents.find? (fun a => a.id = agentId) with
  | none =>
      { status := 404, kind := .notFound, store := st, modelCalls := 0,
        usedToolLoop := false, responseText := none }
  | some agent =>
      if ¬ validMessage body.message then
        { status := 400, kind := .validationError, store := st,
          modelCalls := 0, usedToolLoop := false, responseText := none }
      else
        let msgText := match body.message with | .jstr s => s | _ => ""
        let gh := orElseStr body.githubToken envGh
        let ln := orElseStr body.linearApiKey envLn
        if body.conversationId ≠ "" then
          match st.getConversation body.conversationId with
          | none =>
              { status := 404, kind := .notFound, store := st,
                modelCalls := 0, usedToolLoop := false, responseText := none }
          | some conv =>
              if conv.agent_id ≠ agent.id then
                { status := 400, kind := .conflictError, store := st,
                  modelCalls := 0, usedToolLoop := false, responseText := none }
              else
                chatEndpointRun env agent st conv.id msgText gh ln
        else
          let p := st.createConversation env.freshConvId agent.id (jsTake msgText 100)
          chatEndpointRun env agent p.1 p.2.id msgText gh ln

/-! ### Auxiliary definitions for the statements -/

def defaultToolCall : ToolCall := { id := "", fname := "", args := .jsonArg .jnull }

def defaultToolResult : ToolResult := { tool_call_id := "", role := "", content := "" }

def msgDefault : Message := { role := "", content := "" }

/-- Did the model runtime call reject? -/
def ModelResponse.isFailure : ModelResponse → Bool
  | .failure _ => true
  | .success _ _ _ _ => false

/-- Does the response request tool calls (success with a non-empty
`tool_calls` array)? -/
def ModelResponse.requestsTools : ModelResponse → Bool
  | .failure _ => false
  | .success _ tcs _ _ => !tcs.isEmpty

/-- A model runtime that requests tool calls on every round. -/
def respondsWithTools (env : Env) : Prop :=
  ∀ ms, (env.respond ms).requestsTools = true

/-- The argument payload after the dispatch boundary's normalization:
string payloads go through `JSON.parse`, structured ones pass through. -/
def normalizedArgs (env : Env) : Args → Option Json
  | .strArg s => env.parseJson s
  | .jsonArg a => some a

/-- The next working sequence after a tool-call round. -/
def nextMessages (env : Env) (gh ln : String) (cur : List Message)
    (content : String) (tcs : List ToolCall) : List Message :=
  (cur ++ [assistantMessage content tcs]) ++
    (processToolCalls env tcs gh ln).map toolResultMessage

/-! ### Concrete data for counterexamples and witnesses -/

/-- A tool call whose function name matches no executor. -/
def tcUnknown : ToolCall :=
  { id := "call-1", fname := "mystery_tool", args := .jsonArg .jnull }

/-- A tool call whose string argument payload is not valid JSON. -/
def tcBadArgs : ToolCall :=
  { id := "id-a", fname := "weird", args := .strArg "not json" }

def tcGithub : ToolCall :=
  { id := "id-b", fname := "github_list_repos", args := .jsonArg .jnull }

def tcLinear : ToolCall :=
  { id := "id-c", fname := "linear_list_teams", args := .jsonArg .jnull }

def tcA : ToolCall := { id := "call-a", fname := "github_x", args := .jsonArg .jnull }

def tcB : ToolCall := { id := "call-b", fname := "linear_y", args := .jsonArg .jnull }

def msgUser : Message := { role := "user", content := "hi" }

/-- A model runtime that requests one `tcUnknown` call while the working
sequence has at most `k` messages and finishes afterwards. -/
def envRound (k : Nat) : Env :=
  { parseJson := fun _ => none
    githubExec := fun _ _ => .threw "boom"
    linearExec := fun _ _ => .threw "boom"
    respond := fun ms =>
      if ms.length ≤ k then .success "" [tcUnknown] 0 0
      else .success "done" [] 1 2
    freshConvId := "conv-new" }

/-- A model runtime that answers without tool calls; the executors raise
and `JSON.parse` fails on every input. -/
def envPlain : Env :=
  { parseJson := fun _ => none
    githubExec := fun _ _ => .threw "boom"
    linearExec := fun _ _ => .threw "boom"
    respond := fun _ => .success "done" [] 1 2
    freshConvId := "conv-new" }

/-- A model runtime that requests tool calls on every round. -/
def envToolsForever : Env :=
  { envPlain with respond := fun _ => .success "partial" [tcUnknown] 0 0 }

/-- A model runtime whose every call fails at the connection level. -/
def envConnFail : Env :=
  { envPlain with respond := fun _ => .failure "Ollama connection error: ECONNREFUSED" }

def agentA : Agent :=
  { id := "a1", systemInstructions := "sys", allowedTools := [] }

def storeEmpty : Store := { conversations := [], messages := [] }

/-- A chat body with a valid message and a GitHub token, no conversation. -/
def bodyTok : ChatBody :=
  { message := .jstr "hi", conversationId := "", githubToken := "tok",
    linearApiKey := "" }

/-- A chat body whose message is whitespace-only. -/
def bodyBlank : ChatBody :=
  { message := .jstr "   ", conversationId := "", githubToken := "",
    linearApiKey := "" }

/-- A conversation owned by a different agent. -/
def convB : Conversation :=
  { id := "conv-9", agent_id := "other-agent", title := "t" }

def storeC9 : Store := { conversations := [convB], messages := [] }

/-- A chat body addressing `convB` by id. -/
def bodyConv : ChatBody :=
  { message := .jstr "hi", conversationId := "conv-9", githubToken := "",
    linearApiKey := "" }

def heapW : Heap := { arrays := [[msgUser]] }

/-- One NDJSON line of an Ollama streaming response. -/
def lineHello : String := "\x7b\"message\":\x7b\"content\":\"Hello\"\x7d\x7d"

/-- Its parsed value. -/
def jsonHello : Json :=
  .jobj (.cons "message" (.jobj (.cons "content" (.jstr "Hello") .nil)) .nil)

/-- The `JSON.parse` oracle for that line. -/
def parseHello : String → Option Json :=
  fun s => if s = lineHello then some jsonHello else none

/-! ### Helper lemmas -/

theorem executeTool_eq_normalized (env : Env) (tc : ToolCall) (gh ln : String) :
    executeTool env tc gh ln =
      match normalizedArgs env tc.args with
      | none => errContent "Invalid JSON arguments" none
      | some a => executeRouted env tc.fname a gh ln := by
  cases h : tc.args with
  | strArg s => simp only [executeTool, normalizedArgs, h]
  | jsonArg a => simp only [executeTool, normalizedArgs, h]

theorem processToolCalls_getD (env : Env) (gh ln : String) :
    ∀ (calls : List ToolCall) i, i < calls.length →
      (processToolCalls env calls gh ln).getD i defaultToolResult =
        mkToolResult env gh ln (calls.getD i defaultToolCall) := by
  intro calls
  induction calls with
  | nil => intro i h; simp at h
  | cons c cs ih =>
      intro i h
      cases i with
      | zero => simp [processToolCalls]
      | succ n =>
          simp only [processToolCalls, List.map_cons, List.getD_cons_succ]
          exact ih n (by simpa using Nat.lt_of_succ_lt_succ h)

theorem chatLoop_ok_of_no_failure (env : Env) (gh ln : String)
    (hresp : ∀ ms, (env.respond ms).isFailure = false) :
    ∀ fuel cur acc iters,
      isOkE (chatLoop env gh ln fuel cur acc iters).outcome = true := by
  intro fuel
  induction fuel with
  | zero => intro cur acc iters; simp [chatLoop, isOkE]
  | succ n ih =>
      intro cur acc iters
      have h := hresp cur
      simp only [chatLoop]
      cases hr : env.respond cur with
      | failure e => rw [hr] at h; simp [ModelResponse.isFailure] at h
      | success content tcs dur ec =>
          by_cases htc : tcs.isEmpty
          · simp [htc, isOkE]
          · simp only [htc, if_neg, Bool.false_eq_true, if_false]
            exact ih _ _ _

/-- C2: per-call failure isolation at the dispatch boundary.  Each failure
mode (unparseable string payload, unknown function name, missing
credential for either executor, executor raising on a downstream failure)
produces that single call's serialized error content; results in a batch
are computed pointwise (so one call's failure cannot disturb a sibling),
and no combination of tool failures makes the loop itself reject as long
as the model runtime does not. -/
theorem executeTool_failure_isolation (env : Env) (gh ln : String) :
    (∀ tc s, tc.args = .strArg s → env.parseJson s = none →
       executeTool env tc gh ln = errContent "Invalid JSON arguments" none) ∧
    (∀ tc a, normalizedArgs env tc.args = some a →
       jsStartsWith tc.fname "github_" = false →
       jsStartsWith tc.fname "linear_" = false →
       executeTool env tc gh ln =
         errContent ("Unknown tool: " ++ tc.fname) (some tc.fname)) ∧
    (∀ tc a, normalizedArgs env tc.args = some a →
       jsStartsWith tc.fname "github_" = true → gh = "" →
       executeTool env tc gh ln =
         errContent "GitHub token not configured" (some tc.fname)) ∧
    (∀ tc a, normalizedArgs env tc.args = some a →
       jsStartsWith tc.fname "github_" = false →
       jsStartsWith tc.fname "linear_" = true → ln = "" →
       executeTool env tc gh ln =
         errContent "Linear API key not configured" (some tc.fname)) ∧
    (∀ tc a m, normalizedArgs env tc.args = some a →
       jsStartsWith tc.fname "github_" = true → gh ≠ "" →
       env.githubExec tc.fname a = .threw m →
       executeTool env tc gh ln = errContent m (some tc.fname)) ∧
    (∀ tc a m, normalizedArgs env tc.args = some a →
       jsStartsWith tc.fname "github_" = false →
       jsStartsWith tc.fname "linear_" = true → ln ≠ "" →
       env.linearExec tc.fname a = .threw m →
       executeTool env tc gh ln = errContent m (some tc.fname)) ∧
    (∀ toolCalls,
       (processToolCalls env toolCalls gh ln).length = toolCalls.length ∧
       ∀ i, i < toolCalls.length →
         (processToolCalls env toolCalls gh ln).getD i defaultToolResult =
           mkToolResult env gh ln (toolCalls.getD i defaultToolCall)) ∧
    (∀ messages tools maxIter, (∀ ms, (env.respond ms).isFailure = false) →
       isOkE (chatWithTools env messages tools gh ln maxIter).outcome = true) := by
  refine ⟨?_, ?_, ?_, ?_, ?_, ?_, ?_, ?_⟩
  · intro tc s hargs hparse
    simp [executeTool, hargs, hparse]
  · intro tc a hnorm hgh hln
    rw [executeTool_eq_normalized, hnorm]
    simp [executeRouted, hgh, hln]
  · intro tc a hnorm hgh hcred
    rw [executeTool_eq_normalized, hnorm]
    simp [executeRouted, hgh, hcred]
  · intro tc a hnorm hgh hln hcred
    rw [executeTool_eq_normalized, hnorm]
    simp [executeRouted, hgh, hln, hcred]
  · intro tc a m hnorm hgh hcred hexec
    rw [executeTool_eq_normalized, hnorm]
    simp [executeRouted, hgh, hcred, hexec]
  · intro tc a m hnorm hgh hln hcred hexec
    rw [executeTool_eq_normalized, hnorm]
    simp [executeRouted, hgh, hln, hcred, hexec]
  · intro toolCalls
    exact ⟨by simp [processToolCalls], processToolCalls_getD env gh ln toolCalls⟩
  · intro messages tools maxIter hresp
    exact chatLoop_ok_of_no_failure env gh ln hresp maxIter messages [] 0

/-- C4: results of a batch are positioned by call-submission order: the
results array has the batch's length and the i-th result carries the i-th
call's identifier. -/
theorem processToolCalls_submission_order (env : Env) (gh ln : String)
    (toolCalls : List ToolCall) :
    (processToolCalls env toolCalls gh ln).length = toolCalls.length ∧
    ∀ i, i < toolCalls.length →
      ((processToolCalls env toolCalls gh ln).getD i defaultToolResult).tool_call_id
        = (toolCalls.getD i defaultToolCall).id := by
  refine ⟨by simp [processToolCalls], ?_⟩
  intro i h
  rw [processToolCalls_getD env gh ln toolCalls i h]
  rfl

theorem chatLoop_step_failure (env : Env) (gh ln : String)
    (n : Nat) (cur : List Message) (acc : List ToolResult) (iters : Nat)
    (e : String) (hr : env.respond cur = .failure e) :
    chatLoop env gh ln (n + 1) cur acc iters =
      { outcome := .error e, trace := [cur], finalMessages := cur } := by
  simp [chatLoop, hr]

theorem chatLoop_step_final (env : Env) (gh ln : String)
    (n : Nat) (cur : List Message) (acc : List ToolResult) (iters : Nat)
    (content : String) (tcs : List ToolCall) (dur ec : Nat)
    (hr : env.respond cur = .success content tcs dur ec)
    (htc : tcs.isEmpty = true) :
    chatLoop env gh ln (n + 1) cur acc iters =
      { outcome := .ok
          { message := content, toolResults := acc, iterations := iters + 1,
            totalDuration := some dur, evalCount := some ec,
            maxIterationsReached := false }
        trace := [cur], finalMessages := cur } := by
  simp [chatLoop, hr, htc]

theorem chatLoop_step_tools (env : Env) (gh ln : String)
    (n : Nat) (cur : List Message) (acc : List ToolResult) (iters : Nat)
    (content : String) (tcs : List ToolCall) (dur ec : Nat)
    (hr : env.respond cur = .success content tcs dur ec)
    (htc : tcs.isEmpty = false) :
    chatLoop env gh ln (n + 1) cur acc iters =
      { outcome := (chatLoop env gh ln n (nextMessages env gh ln cur content tcs)
          (acc ++ processToolCalls env tcs gh ln) (iters + 1)).outcome
        trace := cur :: (chatLoop env gh ln n (nextMessages env gh ln cur content tcs)
          (acc ++ processToolCalls env tcs gh ln) (iters + 1)).trace
        finalMessages := (chatLoop env gh ln n
          (nextMessages env gh ln cur content tcs)
          (acc ++ processToolCalls env tcs gh ln) (iters + 1)).finalMessages } := by
  simp [chatLoop, hr, htc, nextMessages]

theorem chatLoop_trace_le (env : Env) (gh ln : String) :
    ∀ fuel cur acc iters,
      (chatLoop env gh ln fuel cur acc iters).trace.length ≤ fuel := by
  intro fuel
  induction fuel with
  | zero => intro cur acc iters; simp [chatLoop]
  | succ n ih =>
      intro cur acc iters
      cases hr : env.respond cur with
      | failure e => rw [chatLoop_step_failure env gh ln n cur acc iters e hr]; simp
      | success content tcs dur ec =>
          cases htc : tcs.isEmpty with
          | true =>
              rw [chatLoop_step_final env gh ln n cur acc iters content tcs dur ec hr htc]
              simp
          | false =>
              rw [chatLoop_step_tools env gh ln n cur acc iters content tcs dur ec hr htc]
              simpa using Nat.succ_le_succ (ih _ _ _)

theorem chatLoop_allTools (env : Env) (gh ln : String)
    (hresp : respondsWithTools env) :
    ∀ fuel cur acc iters,
      isOkE (chatLoop env gh ln fuel cur acc iters).outcome = true ∧
      (chatLoop env gh ln fuel cur acc iters).outcomeD.maxIterationsReached = true ∧
      (chatLoop env gh ln fuel cur acc iters).outcomeD.iterations = iters + fuel ∧
      (chatLoop env gh ln fuel cur acc iters).outcomeD.message =
        fallbackMessage (chatLoop env gh ln fuel cur acc iters).finalMessages ∧
      (chatLoop env gh ln fuel cur acc iters).outcomeD.totalDuration = none ∧
      (chatLoop env gh ln fuel cur acc iters).trace.length = fuel := by
  intro fuel
  induction fuel with
  | zero =>
      intro cur acc iters
      simp [chatLoop, isOkE, LoopResult.outcomeD]
  | succ n ih =>
      intro cur acc iters
      have h := hresp cur
      cases hr : env.respond cur with
      | failure e =>
          rw [hr] at h
          simp [ModelResponse.requestsTools] at h
      | success content tcs dur ec =>
          rw [hr] at h
          have htc : tcs.isEmpty = false := by
            simpa [ModelResponse.requestsTools] using h
          rw [chatLoop_step_tools env gh ln n cur acc iters content tcs dur ec hr htc]
          have ihr := ih (nextMessages env gh ln cur content tcs)
            (acc ++ processToolCalls env tcs gh ln) (iters + 1)
          cases hout : (chatLoop env gh ln n (nextMessages env gh ln cur content tcs)
              (acc ++ processToolCalls env tcs gh ln) (iters + 1)).outcome with
          | error e2 => rw [hout] at ihr; simp [isOkE] at ihr
          | ok out =>
              rw [hout] at ihr
              simp only [LoopResult.outcomeD, hout, isOkE] at ihr ⊢
              refine ⟨trivial, ihr.2.1, ?_, ihr.2.2.2.1, ihr.2.2.2.2.1, ?_⟩
              · rw [ihr.2.2.1]; omega
              · simp [ihr.2.2.2.2.2]

theorem chatLoop_error_src (env : Env) (gh ln : String) :
    ∀ fuel cur acc iters e,
      (chatLoop env gh ln fuel cur acc iters).outcome = .error e →
        (chatLoop env gh ln fuel cur acc iters).trace ≠ [] ∧
        env.respond ((chatLoop env gh ln fuel cur acc iters).trace.getLastD []) =
          .failure e := by
  intro fuel
  induction fuel with
  | zero => intro cur acc iters e h; simp [chatLoop] at h
  | succ n ih =>
      intro cur acc iters e h
      cases hr : env.respond cur with
      | failure e0 =>
          rw [chatLoop_step_failure env gh ln n cur acc iters e0 hr] at h ⊢
          simp only at h
          cases h
          exact ⟨by simp, by simpa using hr⟩
      | success content tcs dur ec =>
          cases htc : tcs.isEmpty with
          | true =>
              rw [chatLoop_step_final env gh ln n cur acc iters content tcs dur ec hr htc] at h
              simp at h
          | false =>
              rw [chatLoop_step_tools env gh ln n cur acc iters content tcs dur ec hr htc] at h ⊢
              simp only at h
              obtain ⟨hne, hlast⟩ := ih _ _ _ _ h
              refine ⟨by simp, ?_⟩
              have hsome : ((chatLoop env gh ln n (nextMessages env gh ln cur content tcs)
                  (acc ++ processToolCalls env tcs gh ln) (iters + 1)).trace.getLast?).isSome := by
                rw [List.getLast?_isSome]; exact hne
              obtain ⟨p, hp⟩ := Option.isSome_iff_exists.mp hsome
              have h2 : (chatLoop env gh ln n (nextMessages env gh ln cur content tcs)
                  (acc ++ processToolCalls env tcs gh ln) (iters + 1)).trace.getLastD []
                    = p := by
                rw [List.getLastD_eq_getLast?, hp]; rfl
              have h1 : ((cur :: (chatLoop env gh ln n (nextMessages env gh ln cur content tcs)
                  (acc ++ processToolCalls env tcs gh ln) (iters + 1)).trace).getLastD [])
                    = p := by
                rw [List.getLastD_cons, List.getLastD_eq_getLast?, hp]; rfl
              rw [h2] at hlast
              show env.respond ((cur :: (chatLoop env gh ln n
                (nextMessages env gh ln cur content tcs)
                (acc ++ processToolCalls env tcs gh ln) (iters + 1)).trace).getLastD [])
                  = .failure e
              rw [h1]
              exact hlast

/-- C3: the loop performs at most `maxIterations` model calls; when every
response requests tool calls, it exits by the iteration ceiling with a
normally-returned fallback result whose `maxIterationsReached` flag is
set, whose iteration count is `maxIterations`, and whose message is the
last available content of the working sequence (with the default text
when that content is empty or missing). -/
theorem chatWithTools_iteration_budget (env : Env) (messages : List Message)
    (tools : List ToolDef) (gh ln : String) (maxIter : Nat) :
    (chatWithTools env messages tools gh ln maxIter).trace.length ≤ maxIter ∧
    (respondsWithTools env →
      isOkE (chatWithTools env messages tools gh ln maxIter).outcome = true ∧
      (chatWithTools env messages tools gh ln maxIter).outcomeD.maxIterationsReached
        = true ∧
      (chatWithTools env messages tools gh ln maxIter).outcomeD.iterations = maxIter ∧
      (chatWithTools env messages tools gh ln maxIter).outcomeD.message =
        fallbackMessage (chatWithTools env messages tools gh ln maxIter).finalMessages ∧
      (chatWithTools env messages tools gh ln maxIter).outcomeD.totalDuration = none ∧
      (chatWithTools env messages tools gh ln maxIter).trace.length = maxIter) := by
  constructor
  · exact chatLoop_trace_le env gh ln maxIter messages [] 0
  · intro hresp
    have h := chatLoop_allTools env gh ln hresp maxIter messages [] 0
    simp only [chatWithTools]
    exact ⟨h.1, h.2.1, by rw [h.2.2.1]; omega, h.2.2.2.1, h.2.2.2.2.1,
      h.2.2.2.2.2⟩

/-- C6: a model-runtime failure on the first round propagates immediately
as the loop's own rejection after exactly one model call; conversely, a
rejected loop always traces back to a model-runtime call that failed with
the same error (tool failures never reject the loop). -/
theorem chatWithTools_model_failure (env : Env) (messages : List Message)
    (tools : List ToolDef) (gh ln : String) (maxIter : Nat) (e : String) :
    (1 ≤ maxIter → env.respond messages = .failure e →
       (chatWithTools env messages tools gh ln maxIter).outcome = .error e ∧
       (chatWithTools env messages tools gh ln maxIter).trace = [messages]) ∧
    ((chatWithTools env messages tools gh ln maxIter).outcome = .error e →
       (chatWithTools env messages tools gh ln maxIter).trace ≠ [] ∧
       env.respond
         ((chatWithTools env messages tools gh ln maxIter).trace.getLastD []) =
           .failure e) := by
  constructor
  · intro hpos hr
    cases maxIter with
    | zero => omega
    | succ n => simp [chatWithTools, chatLoop, hr]
  · intro h
    exact chatLoop_error_src env gh ln maxIter messages [] 0 e h

theorem chatLoop_appended (env : Env) (gh ln : String) :
    ∀ fuel cur acc iters,
      (∃ s, (chatLoop env gh ln fuel cur acc iters).finalMessages = cur ++ s ∧
        ∀ m ∈ s, m.role = "tool" →
          m.tool_call_id = none ∧ ∃ tc, m.content = executeTool env tc gh ln) ∧
      (∀ tr ∈ (chatLoop env gh ln fuel cur acc iters).outcomeD.toolResults,
        tr ∈ acc ∨ ∃ tc, tr = mkToolResult env gh ln tc) := by
  intro fuel
  induction fuel with
  | zero =>
      intro cur acc iters
      refine ⟨⟨[], by simp [chatLoop], by simp⟩, ?_⟩
      intro tr htr
      left
      simpa [chatLoop, LoopResult.outcomeD] using htr
  | succ n ih =>
      intro cur acc iters
      cases hr : env.respond cur with
      | failure e =>
          rw [chatLoop_step_failure env gh ln n cur acc iters e hr]
          refine ⟨⟨[], by simp, by simp⟩, ?_⟩
          intro tr htr
          simp [LoopResult.outcomeD] at htr
      | success content tcs dur ec =>
          cases htc : tcs.isEmpty with
          | true =>
              rw [chatLoop_step_final env gh ln n cur acc iters content tcs dur ec hr htc]
              refine ⟨⟨[], by simp, by simp⟩, ?_⟩
              intro tr htr
              left
              simpa [LoopResult.outcomeD] using htr
          | false =>
              rw [chatLoop_step_tools env gh ln n cur acc iters content tcs dur ec hr htc]
              obtain ⟨⟨s, hs, hsprop⟩, htrprop⟩ := ih
                (nextMessages env gh ln cur content tcs)
                (acc ++ processToolCalls env tcs gh ln) (iters + 1)
              constructor
              · refine ⟨assistantMessage content tcs ::
                  ((processToolCalls env tcs gh ln).map toolResultMessage ++ s), ?_, ?_⟩
                · show (chatLoop env gh ln n (nextMessages env gh ln cur content tcs)
                    (acc ++ processToolCalls env tcs gh ln) (iters + 1)).finalMessages = _
                  rw [hs]
                  simp [nextMessages]
                · intro m hm hrole
                  rcases List.mem_cons.mp hm with hma | hm2
                  · rw [hma] at hrole
                    simp [assistantMessage] at hrole
                  · rcases List.mem_append.mp hm2 with hmt | hms
                    · obtain ⟨tr, htr, hmeq⟩ := List.mem_map.mp hmt
                      obtain ⟨tc, _, htreq⟩ := List.mem_map.mp htr
                      refine ⟨by rw [← hmeq]; rfl, tc, ?_⟩
                      rw [← hmeq, ← htreq]
                      rfl
                    · exact hsprop m hms hrole
              · intro tr htr
                have htr2 : tr ∈ (chatLoop env gh ln n
                    (nextMessages env gh ln cur content tcs)
                    (acc ++ processToolCalls env tcs gh ln) (iters + 1)).outcomeD.toolResults := by
                  simpa [LoopResult.outcomeD] using htr
                rcases htrprop tr htr2 with hacc | hex
                · rcases List.mem_append.mp hacc with ha | hp
                  · exact Or.inl ha
                  · obtain ⟨tc, _, htreq⟩ := List.mem_map.mp hp
                    exact Or.inr ⟨tc, htreq.symm⟩
                · exact Or.inr hex

/-- C5 (amended): the loop's returned tool results each consist of the
originating call's identifier, the role tag `tool`, and the executed
function's serialized output; the synthetic tool-role messages appended
to the working sequence carry the role tag and that serialized output but
no call identifier. -/
theorem chatWithTools_toolResult_shape (env : Env) (messages : List Message)
    (tools : List ToolDef) (gh ln : String) (maxIter : Nat) :
    (chatWithTools env messages tools gh ln maxIter).finalMessages.take
      messages.length = messages ∧
    (∀ m ∈ (chatWithTools env messages tools gh ln maxIter).finalMessages.drop
        messages.length,
      m.role = "tool" →
        m.tool_call_id = none ∧ ∃ tc, m.content = executeTool env tc gh ln) ∧
    (∀ tr ∈ (chatWithTools env messages tools gh ln maxIter).outcomeD.toolResults,
      tr.role = "tool" ∧
        ∃ tc, tr.tool_call_id = tc.id ∧ tr.content = executeTool env tc gh ln) := by
  obtain ⟨⟨s, hs, hsprop⟩, htrprop⟩ :=
    chatLoop_appended env gh ln maxIter messages [] 0
  simp only [chatWithTools]
  refine ⟨?_, ?_, ?_⟩
  · rw [hs]
    simp
  · intro m hm
    rw [hs] at hm
    simp at hm
    exact hsprop m hm
  · intro tr htr
    rcases htrprop tr htr with hacc | ⟨tc, htreq⟩
    · simp at hacc
    · rw [htreq]
      exact ⟨rfl, tc, rfl, rfl⟩

theorem getD_set_ne {α : Type} (d : α) :
    ∀ (l : List α) (i j : Nat) (v : α), i ≠ j →
      (l.set i v).getD j d = l.getD j d := by
  intro l
  induction l with
  | nil => intro i j v _; cases i <;> rfl
  | cons a as ih =>
      intro i j v hne
      cases i with
      | zero =>
          cases j with
          | zero => omega
          | succ m => rfl
      | succ k =>
          cases j with
          | zero => rfl
          | succ m =>
              simp only [List.set_cons_succ, List.getD_cons_succ]
              exact ih k m v (by omega)

theorem getD_append_left {α : Type} (d : α) :
    ∀ (l1 l2 : List α) (j : Nat), j < l1.length →
      (l1 ++ l2).getD j d = l1.getD j d := by
  intro l1
  induction l1 with
  | nil => intro l2 j h; simp at h
  | cons a as ih =>
      intro l2 j h
      cases j with
      | zero => rfl
      | succ m =>
          simp only [List.cons_append, List.getD_cons_succ]
          exact ih l2 m (by simpa using Nat.lt_of_succ_lt_succ h)

theorem Heap.get_push_ne (h : Heap) (r q : Nat) (m : Message) (hne : q ≠ r) :
    (h.push r m).get q = h.get q := by
  simp only [Heap.push, Heap.set, Heap.get]
  exact getD_set_ne [] h.arrays r q _ (fun he => hne he.symm)

theorem foldl_push_get_ne :
    ∀ (results : List ToolResult) (hh : Heap) (r q : Nat), q ≠ r →
      (results.foldl (fun a tr => a.push r (toolResultMessage tr)) hh).get q =
        hh.get q := by
  intro results
  induction results with
  | nil => intro hh r q _; rfl
  | cons tr trs ih =>
      intro hh r q hne
      simp only [List.foldl_cons]
      rw [ih (hh.push r (toolResultMessage tr)) r q hne]
      exact Heap.get_push_ne hh r q (toolResultMessage tr) hne

theorem chatLoopH_frame (env : Env) (gh ln : String) :
    ∀ fuel (h : Heap) (r q : Nat), q ≠ r →
      (chatLoopH env gh ln fuel h r).get q = h.get q := by
  intro fuel
  induction fuel with
  | zero => intro h r q _; rfl
  | succ n ih =>
      intro h r q hne
      cases hr : env.respond (h.get r) with
      | failure e => simp [chatLoopH, hr]
      | success content tcs dur ec =>
          cases htc : tcs.isEmpty with
          | true => simp [chatLoopH, hr, htc]
          | false =>
              have hstep : chatLoopH env gh ln (n + 1) h r =
                  chatLoopH env gh ln n
                    ((processToolCalls env tcs gh ln).foldl
                      (fun hh tr => hh.push r (toolResultMessage tr))
                      (h.push r (assistantMessage content tcs))) r := by
                simp [chatLoopH, hr, htc]
              rw [hstep, ih _ r q hne,
                foldl_push_get_ne (processToolCalls env tcs gh ln) _ r q hne,
                Heap.get_push_ne h r q _ hne]

/-- C10: `chatWithTools` never mutates the caller's `messages` array: the
loop works on a freshly allocated copy seeded from the input, so all
pushes during the iterations leave the array behind the caller's
reference unchanged. -/
theorem chatWithTools_no_caller_mutation (env : Env) (gh ln : String)
    (maxIter : Nat) (h : Heap) (messagesRef : Nat)
    (href : messagesRef < h.arrays.length) :
    (chatWithToolsH env gh ln maxIter h messagesRef).get messagesRef =
      h.get messagesRef := by
  have hne : messagesRef ≠ h.arrays.length := by omega
  show (chatLoopH env gh ln maxIter
    (Heap.mk (h.arrays ++ [h.get messagesRef])) h.arrays.length).get messagesRef =
      h.get messagesRef
  rw [chatLoopH_frame env gh ln maxIter _ h.arrays.length messagesRef hne]
  simp only [Heap.get]
  exact getD_append_left [] h.arrays [h.get messagesRef] messagesRef href

theorem modelPhase_props (env : Env) (st1 : Store) (convId : String)
    (msgs : List Message) (gh ln : String) :
    ((modelPhase env st1 convId msgs gh ln).usedToolLoop = true ↔
      getAvailableTools gh ln ≠ []) ∧
    (getAvailableTools gh ln = [] →
      (modelPhase env st1 convId msgs gh ln).modelCalls = 1) ∧
    ((modelPhase env st1 convId msgs gh ln).kind = .success ∨
     (modelPhase env st1 convId msgs gh ln).kind = .serverError) := by
  unfold modelPhase
  by_cases hl : (getAvailableTools gh ln).length > 0
  · have hne : getAvailableTools gh ln ≠ [] := by
      intro hnil
      rw [hnil] at hl
      simp at hl
    cases houtc : (chatWithTools env msgs (getAvailableTools gh ln) gh ln 10).outcome with
    | ok out => simp [hl, houtc, hne]
    | error e => simp [hl, houtc, hne]
  · have hnil : getAvailableTools gh ln = [] := by
      cases hcase : getAvailableTools gh ln with
      | nil => rfl
      | cons x xs => rw [hcase] at hl; simp at hl
    cases hr : env.respond msgs with
    | failure e => simp [hl, hr, hnil]
    | success content tcs dur ec => simp [hl, hr, hnil]

theorem chatEndpointRun_props (env : Env) (agent : Agent) (st : Store)
    (convId msgText gh ln : String) :
    ((chatEndpointRun env agent st convId msgText gh ln).usedToolLoop = true ↔
      getAvailableTools gh ln ≠ []) ∧
    (getAvailableTools gh ln = [] →
      (chatEndpointRun env agent st convId msgText gh ln).modelCalls = 1) ∧
    ((chatEndpointRun env agent st convId msgText gh ln).kind = .success ∨
     (chatEndpointRun env agent st convId msgText gh ln).kind = .serverError) := by
  unfold chatEndpointRun
  exact modelPhase_props env _ convId _ gh ln

/-- C8: a chat request whose `message` field is missing, not a string, or
empty/whitespace-only is rejected before any model call or store write:
the store is returned unchanged, no model call happens, the tool loop is
not entered, and (when the addressed agent exists) the response is the
400 validation error. -/
theorem chatEndpoint_message_validation (env : Env) (agents : List Agent)
    (st : Store) (agentId : String) (body : ChatBody) (envGh envLn : String)
    (hinv : validMessage body.message = false) :
    (chatEndpoint env agents st agentId body envGh envLn).store = st ∧
    (chatEndpoint env agents st agentId body envGh envLn).modelCalls = 0 ∧
    (chatEndpoint env agents st agentId body envGh envLn).usedToolLoop = false ∧
    ((agents.find? (fun x => x.id = agentId)).isSome = true →
      (chatEndpoint env agents st agentId body envGh envLn).kind =
        .validationError ∧
      (chatEndpoint env agents st agentId body envGh envLn).status = 400) := by
  cases hf : agents.find? (fun x => x.id = agentId) with
  | none => simp [chatEndpoint, hf]
  | some a => simp [chatEndpoint, hf, hinv]

/-- C9: a chat request naming a conversation owned by a different agent is
rejected with the ownership-conflict error (HTTP 400) before any store
write or model call: the store is unchanged and no message is appended. -/
theorem chatEndpoint_conversation_ownership (env : Env) (agents : List Agent)
    (st : Store) (agentId : String) (body : ChatBody) (envGh envLn : String)
    (a : Agent) (conv : Conversation)
    (hf : agents.find? (fun x => x.id = agentId) = some a)
    (hv : validMessage body.message = true)
    (hcid : body.conversationId ≠ "")
    (hconv : st.getConversation body.conversationId = some conv)
    (hmis : conv.agent_id ≠ a.id) :
    (chatEndpoint env agents st agentId body envGh envLn).kind =
      .conflictError ∧
    (chatEndpoint env agents st agentId body envGh envLn).status = 400 ∧
    (chatEndpoint env agents st agentId body envGh envLn).store = st ∧
    (chatEndpoint env agents st agentId body envGh envLn).modelCalls = 0 := by
  simp [chatEndpoint, hf, hv, hcid, hconv, hmis]

/-- C1 (amended): the chat handler chooses between the tool loop and the
direct model call by whether the function catalog derived from the
configured credentials is non-empty — the agent's permitted-tool list is
not consulted.  When both credentials are absent the catalog is empty,
`chatWithTools` is never invoked, and a request that reaches the model
phase makes exactly one model call. -/
theorem chatEndpoint_branch_by_credentials (env : Env) (agents : List Agent)
    (st : Store) (agentId : String) (body : ChatBody) (envGh envLn : String) :
    ((chatEndpoint env agents st agentId body envGh envLn).usedToolLoop = true →
      getAvailableTools (orElseStr body.githubToken envGh)
        (orElseStr body.linearApiKey envLn) ≠ []) ∧
    (orElseStr body.githubToken envGh = "" →
      orElseStr body.linearApiKey envLn = "" →
      (chatEndpoint env agents st agentId body envGh envLn).usedToolLoop = false ∧
      (chatEndpoint env agents st agentId body envGh envLn).modelCalls ≤ 1 ∧
      (((chatEndpoint env agents st agentId body envGh envLn).kind = .success ∨
        (chatEndpoint env agents st agentId body envGh envLn).kind = .serverError) →
        (chatEndpoint env agents st agentId body envGh envLn).modelCalls = 1)) := by
  cases hf : agents.find? (fun x => x.id = agentId) with
  | none => simp [chatEndpoint, hf]
  | some a =>
      by_cases hv : validMessage body.message
      · by_cases hcid : body.conversationId = ""
        · -- fresh conversation: the model phase runs
          have hrun := chatEndpointRun_props env a
            ((st.createConversation env.freshConvId a.id
              (jsTake (match body.message with | .jstr s => s | _ => "") 100)).1)
            ((st.createConversation env.freshConvId a.id
              (jsTake (match body.message with | .jstr s => s | _ => "") 100)).2.id)
            (match body.message with | .jstr s => s | _ => "")
            (orElseStr body.githubToken envGh) (orElseStr body.linearApiKey envLn)
          constructor
          · intro hused
            apply hrun.1.mp
            simpa [chatEndpoint, hf, hv, hcid] using hused
          · intro hgh hln
            have hnil : getAvailableTools (orElseStr body.githubToken envGh)
                (orElseStr body.linearApiKey envLn) = [] := by
              rw [hgh, hln]; rfl
            have hloop : (chatEndpoint env agents st agentId body envGh envLn).usedToolLoop
                = false := by
              have := hrun.1
              rw [hnil] at this
              simp only [ne_eq, not_true_eq_false, iff_false] at this
              have hgoal : (chatEndpoint env agents st agentId body envGh
                  envLn).usedToolLoop ≠ true := by
                simpa [chatEndpoint, hf, hv, hcid] using this
              simpa using hgoal
            have hcalls : (chatEndpoint env agents st agentId body envGh
                envLn).modelCalls = 1 := by
              simpa [chatEndpoint, hf, hv, hcid] using hrun.2.1 hnil
            exact ⟨hloop, by omega, fun _ => hcalls⟩
        · cases hconv : st.getConversation body.conversationId with
          | none => simp [chatEndpoint, hf, hv, hcid, hconv]
          | some conv =>
              by_cases hmis : conv.agent_id = a.id
              · -- owned conversation: the model phase runs
                have hrun := chatEndpointRun_props env a st conv.id
                  (match body.message with | .jstr s => s | _ => "")
                  (orElseStr body.githubToken envGh)
                  (orElseStr body.linearApiKey envLn)
                constructor
                · intro hused
                  apply hrun.1.mp
                  simpa [chatEndpoint, hf, hv, hcid, hconv, hmis] using hused
                · intro hgh hln
                  have hnil : getAvailableTools (orElseStr body.githubToken envGh)
                      (orElseStr body.linearApiKey envLn) = [] := by
                    rw [hgh, hln]; rfl
                  have hloop : (chatEndpoint env agents st agentId body envGh
                      envLn).usedToolLoop = false := by
                    have := hrun.1
                    rw [hnil] at this
                    simp only [ne_eq, not_true_eq_false, iff_false] at this
                    have hgoal : (chatEndpoint env agents st agentId body envGh
                        envLn).usedToolLoop ≠ true := by
                      simpa [chatEndpoint, hf, hv, hcid, hconv, hmis] using this
                    simpa using hgoal
                  have hcalls : (chatEndpoint env agents st agentId body envGh
                      envLn).modelCalls = 1 := by
                    simpa [chatEndpoint, hf, hv, hcid, hconv, hmis] using
                      hrun.2.1 hnil
                  exact ⟨hloop, by omega, fun _ => hcalls⟩
              · simp [chatEndpoint, hf, hv, hcid, hconv, hmis]
      · have hinv : validMessage body.message = false := by
          simpa using hv
        simp [chatEndpoint, hf, hinv]

/-- C5 counterexample: in a concrete run (one requested call, id
`call-1`), the tool-result message appended to the working sequence
carries the role tag and the serialized output but no call identifier:
the claim that every appended tool-result message consists of the call
identifier, a role tag and the serialized output fails on the code. -/
theorem chatWithTools_toolmsg_lacks_id :
    ¬ (∀ m ∈ (chatWithTools (envRound 1) [msgUser] [] "" "" 10).finalMessages.drop 1,
        m.role = "tool" → m.tool_call_id ≠ none) := by
  intro hall
  have e1 := chatLoop_step_tools (envRound 1) "" "" 9 [msgUser] [] 0 ""
    [tcUnknown] 0 0 rfl rfl
  have e2 := chatLoop_step_final (envRound 1) "" "" 8
    (nextMessages (envRound 1) "" "" [msgUser] "" [tcUnknown])
    ([] ++ processToolCalls (envRound 1) [tcUnknown] "" "") 1 "done" [] 1 2 rfl rfl
  have hfin : (chatWithTools (envRound 1) [msgUser] [] "" "" 10).finalMessages =
      nextMessages (envRound 1) "" "" [msgUser] "" [tcUnknown] := by
    show (chatLoop (envRound 1) "" "" 10 [msgUser] [] 0).finalMessages = _
    rw [e1]
    show (chatLoop (envRound 1) "" "" 9
      (nextMessages (envRound 1) "" "" [msgUser] "" [tcUnknown])
      ([] ++ processToolCalls (envRound 1) [tcUnknown] "" "") 1).finalMessages = _
    rw [e2]
  have hmem : toolResultMessage (mkToolResult (envRound 1) "" "" tcUnknown) ∈
      (chatWithTools (envRound 1) [msgUser] [] "" "" 10).finalMessages.drop 1 := by
    rw [hfin]
    show toolResultMessage (mkToolResult (envRound 1) "" "" tcUnknown) ∈
      [assistantMessage "" [tcUnknown],
       toolResultMessage (mkToolResult (envRound 1) "" "" tcUnknown)]
    exact List.mem_cons_of_mem _ (List.mem_cons_self _ _)
  exact hall _ hmem rfl rfl

/-- C1 counterexample: a chat request addressed to an agent whose
permitted-tool list is empty still enters `chatWithTools` and makes two
model calls, because a GitHub token is configured: the loop/direct branch
is derived from the credentials, never from the agent's permitted
tools. -/
theorem chatEndpoint_empty_allowedTools_uses_loop :
    agentA.allowedTools = [] ∧
    (chatEndpoint (envRound 2) [agentA] storeEmpty "a1" bodyTok "" "").usedToolLoop
      = true ∧
    (chatEndpoint (envRound 2) [agentA] storeEmpty "a1" bodyTok "" "").modelCalls
      = 2 := by
  refine ⟨rfl, ?_, ?_⟩ <;> rfl

/-- C7 (evaluation of the code at the failing input): for the NDJSON line
carrying content `Hello`, `chatStream` enqueues the fragment sequence
`["Hello"]`; but the SSE handler extracts `chunk.message?.content || ''`
from chunks that are already plain strings, so every delivered SSE chunk
text is empty and the persisted `fullMessage` is `""` instead of
`"Hello"` — and this loss happens for every fragment sequence. -/
theorem streamHandler_drops_fragments :
    chatStreamFragments parseHello [lineHello] = ["Hello"] ∧
    concatAll (chatStreamFragments parseHello [lineHello]) = "Hello" ∧
    (streamHandlerRun (chatStreamChunks parseHello [lineHello])).1 = [""] ∧
    (streamHandlerRun (chatStreamChunks parseHello [lineHello])).2 = "" ∧
    (∀ fragments : List String,
      (streamHandlerRun (fragments.map Json.jstr)).2 = "") := by
  refine ⟨rfl, rfl, rfl, rfl, ?_⟩
  intro fragments
  induction fragments with
  | nil => rfl
  | cons f fs ih =>
      show handlerChunkText (Json.jstr f) ++ (streamHandlerRun (fs.map Json.jstr)).2 = ""
      rw [ih]
      rfl

/-! ### Witnesses -/

theorem executeTool_failure_isolation_witness :
    executeTool envPlain tcBadArgs "" "" = errContent "Invalid JSON arguments" none ∧
    executeTool envPlain tcUnknown "" "" =
      errContent "Unknown tool: mystery_tool" (some "mystery_tool") ∧
    executeTool envPlain tcGithub "" "" =
      errContent "GitHub token not configured" (some "github_list_repos") ∧
    executeTool envPlain tcLinear "" "" =
      errContent "Linear API key not configured" (some "linear_list_teams") ∧
    executeTool envPlain tcGithub "tok" "" = errContent "boom" (some "github_list_repos") ∧
    executeTool envPlain tcLinear "" "key" = errContent "boom" (some "linear_list_teams") ∧
    (processToolCalls envPlain [tcBadArgs, tcGithub] "" "").length = 2 ∧
    isOkE (chatWithTools envPlain [msgUser] [] "" "" 10).outcome = true := by
  have h0 := executeTool_failure_isolation envPlain "" ""
  have hg := executeTool_failure_isolation envPlain "tok" ""
  have hl := executeTool_failure_isolation envPlain "" "key"
  refine ⟨h0.1 tcBadArgs "not json" rfl rfl,
    h0.2.1 tcUnknown .jnull rfl (by decide) (by decide),
    h0.2.2.1 tcGithub .jnull rfl (by decide) rfl,
    h0.2.2.2.1 tcLinear .jnull rfl (by decide) (by decide) rfl,
    hg.2.2.2.2.1 tcGithub .jnull "boom" rfl (by decide) (by decide) rfl,
    hl.2.2.2.2.2.1 tcLinear .jnull "boom" rfl (by decide) (by decide) (by decide) rfl,
    (h0.2.2.2.2.2.2.1 [tcBadArgs, tcGithub]).1,
    h0.2.2.2.2.2.2.2 [msgUser] [] 10 (fun ms => rfl)⟩

theorem chatWithTools_iteration_budget_witness :
    isOkE (chatWithTools envToolsForever [msgUser] [] "" "" 3).outcome = true ∧
    (chatWithTools envToolsForever [msgUser] [] "" "" 3).outcomeD.maxIterationsReached
      = true ∧
    (chatWithTools envToolsForever [msgUser] [] "" "" 3).outcomeD.iterations = 3 ∧
    (chatWithTools envToolsForever [msgUser] [] "" "" 3).trace.length = 3 := by
  have h := (chatWithTools_iteration_budget envToolsForever [msgUser] [] "" "" 3).2
    (fun ms => rfl)
  exact ⟨h.1, h.2.1, h.2.2.1, h.2.2.2.2.2⟩

theorem processToolCalls_submission_order_witness :
    (processToolCalls envPlain [tcA, tcB] "" "").length = 2 ∧
    ((processToolCalls envPlain [tcA, tcB] "" "").getD 0 defaultToolResult).tool_call_id
      = "call-a" ∧
    ((processToolCalls envPlain [tcA, tcB] "" "").getD 1 defaultToolResult).tool_call_id
      = "call-b" := by
  have h := processToolCalls_submission_order envPlain "" "" [tcA, tcB]
  refine ⟨by simpa using h.1, ?_, ?_⟩
  · have h0 := h.2 0 (by decide)
    simpa [tcA] using h0
  · have h1 := h.2 1 (by decide)
    simpa [tcB] using h1

theorem chatWithTools_model_failure_witness :
    (chatWithTools envConnFail [msgUser] [] "" "" 10).outcome =
      .error "Ollama connection error: ECONNREFUSED" ∧
    (chatWithTools envConnFail [msgUser] [] "" "" 10).trace = [[msgUser]] :=
  (chatWithTools_model_failure envConnFail [msgUser] [] "" "" 10
    "Ollama connection error: ECONNREFUSED").1 (by omega) rfl

theorem chatEndpoint_message_validation_witness :
    (chatEndpoint envPlain [agentA] storeEmpty "a1" bodyBlank "" "").store
      = storeEmpty ∧
    (chatEndpoint envPlain [agentA] storeEmpty "a1" bodyBlank "" "").modelCalls = 0 ∧
    (chatEndpoint envPlain [agentA] storeEmpty "a1" bodyBlank "" "").usedToolLoop
      = false ∧
    (chatEndpoint envPlain [agentA] storeEmpty "a1" bodyBlank "" "").kind
      = .validationError ∧
    (chatEndpoint envPlain [agentA] storeEmpty "a1" bodyBlank "" "").status = 400 := by
  have h := chatEndpoint_message_validation envPlain [agentA] storeEmpty "a1"
    bodyBlank "" "" (by decide)
  have h4 := h.2.2.2 (by decide)
  exact ⟨h.1, h.2.1, h.2.2.1, h4.1, h4.2⟩

theorem chatEndpoint_conversation_ownership_witness :
    (chatEndpoint envPlain [agentA] storeC9 "a1" bodyConv "" "").kind
      = .conflictError ∧
    (chatEndpoint envPlain [agentA] storeC9 "a1" bodyConv "" "").status = 400 ∧
    (chatEndpoint envPlain [agentA] storeC9 "a1" bodyConv "" "").store = storeC9 ∧
    (chatEndpoint envPlain [agentA] storeC9 "a1" bodyConv "" "").modelCalls = 0 :=
  chatEndpoint_conversation_ownership envPlain [agentA] storeC9 "a1" bodyConv
    "" "" agentA convB rfl (by decide) (by decide) rfl (by decide)

theorem chatWithTools_no_caller_mutation_witness :
    (chatWithToolsH envPlain "" "" 10 heapW 0).get 0 = heapW.get 0 :=
  chatWithTools_no_caller_mutation envPlain "" "" 10 heapW 0 (by decide)
